import Mathlib

/-!
Verification of the DeepFrank cat-emotion pipeline.

Shallow embedding of the core pipeline of the DeepFrank repository:
  - `backend/body_part_analysis.py` (eye / mouth / tail analyzers, emotion fuser)
  - `backend/services/detection_service.py` (preprocessing, box decoding, NMS)
  - `backend/services/image_service.py` (ROI extraction)
  - `backend/services/analysis_service.py` (body-part analysis and fusion)

Python floats are modelled as rationals; numpy integer truncation (`int(...)`)
is modelled explicitly; Python's truthiness test on `Optional[str]` is
modelled by `truthy`.  External OpenCV routines (Otsu threshold, contours,
`cv2.dnn.NMSBoxes`, `cv2.minAreaRect`) are not code of this repository; where
a claim depends on them they are either abstracted as parameters or modelled
from the spec, as noted at each definition.
-/

namespace DeepFrank

/-! ## Emotion fuser (`CatEmotionAnalyzer`, body_part_analysis.py lines 284-325) -/

/-- The fixed emotion table `CatEmotionAnalyzer.EMOTION_MAPPING`, kept in its
Python-dict insertion order (Python dicts iterate in insertion order). -/
def EMOTION_MAPPING : List ((String × String × String) × String) :=
  [(("wide_open", "closed", "up"), "alert"),
   (("wide_open", "closed", "down"), "fearful"),
   (("normal", "closed", "up"), "content"),
   (("normal", "open", "up"), "playful"),
   (("closed", "closed", "down"), "sleepy"),
   (("wide_open", "open", "up"), "excited"),
   (("wide_open", "open", "down"), "aggressive")]

/-- `CatEmotionAnalyzer.determine_emotion`.  The dict membership test plus
indexing (`key in EMOTION_MAPPING` / `EMOTION_MAPPING[key]`) is the first
match over the (duplicate-free) key list; the partial-match loop iterates
`.items()` in the same insertion order. -/
def determine_emotion (eye_state mouth_state tail_position : String) : String :=
  match EMOTION_MAPPING.find? (fun p =>
      p.1.1 == eye_state && p.1.2.1 == mouth_state && p.1.2.2 == tail_position) with
  | some p => p.2
  | none =>
    match EMOTION_MAPPING.find? (fun p =>
        p.1.1 == eye_state && p.1.2.1 == mouth_state) with
    | some p => p.2
    | none =>
      if eye_state == "wide_open" && mouth_state == "open" then "excited"
      else if eye_state == "closed" then "sleepy"
      else if tail_position == "down" then "submissive"
      else "neutral"

/-- Tier 1 of the spec's resolution order: the emotion of the table entry whose
triple is exactly the input, if the input is one of the 7 entries. -/
def exactEntry (e m t : String) : Option String :=
  (EMOTION_MAPPING.find? fun p => decide (p.1 = (e, m, t))).map Prod.snd

/-- Tier 2 of the spec's resolution order: the emotion of the first table
entry, in table definition order, whose (eye, mouth) pair equals the input
pair, ignoring tail. -/
def pairEntry (e m : String) : Option String :=
  (EMOTION_MAPPING.find? fun p => decide (p.1.1 = e ∧ p.1.2.1 = m)).map Prod.snd

/-- Tier 3 of the spec's resolution order: the default heuristics, in the
spec's stated priority. -/
def defaultHeuristic (e m t : String) : String :=
  if e = "wide_open" ∧ m = "open" then "excited"
  else if e = "closed" then "sleepy"
  else if t = "down" then "submissive"
  else "neutral"

/-- The spec's three-tier resolution policy, written from the spec's words
(spec 4.8), to be compared with the source's `determine_emotion`. -/
def emotionSpec (e m t : String) : String :=
  match exactEntry e m t with
  | some emotion => emotion
  | none =>
    match pairEntry e m with
    | some emotion => emotion
    | none => defaultHeuristic e m t

/-- The nine labels `determine_emotion` can produce. -/
def emotionVocabulary : List String :=
  ["alert", "fearful", "content", "playful", "sleepy", "excited",
   "aggressive", "submissive", "neutral"]

/-! ## Eye classifier tail (`EyeAnalyzer.analyze_eye`, lines 62-78) -/

/-- The final classification step of `EyeAnalyzer.analyze_eye`: from the
white/dark pixel counts of the Otsu-rethresholded masked eye, compute the
ratio (0 when there are no dark pixels) and classify. -/
def eyeStateOfCounts (white_pixels dark_pixels : ℕ) : String :=
  let ratio : ℚ := if dark_pixels = 0 then 0 else (white_pixels : ℚ) / dark_pixels
  if ratio > 3/2 then "wide_open"
  else if ratio > 1/2 then "normal"
  else "closed"

/-- The ratio used by `eyeStateOfCounts`, named for the statements. -/
def eyeRatio (white_pixels dark_pixels : ℕ) : ℚ :=
  if dark_pixels = 0 then 0 else (white_pixels : ℚ) / dark_pixels

/-! ## Tail analyzer (`TailAnalyzer.detect_tail`, lines 197-232)

`cv2.boundingRect` and `cv2.minAreaRect` are external OpenCV routines; the
part of `detect_tail` that is code of this repository is the arithmetic that
follows them, embedded here as a function of their outputs. -/

structure TailResult where
  position : String
  angle : ℚ
  width_ratio : ℚ
  height_ratio : ℚ
deriving DecidableEq, Repr

/-- The tail of `TailAnalyzer.detect_tail` after the external contour calls:
given the ROI shape, the axis-aligned bounding rect `(x, y, w, h)` of the
largest contour and the min-area-rect angle `rect[2]`, compute ratios,
normalize the angle (add 90 when below -45) and classify the position. -/
def detect_tail_from_rect (roi_w roi_h : ℕ) (w h : ℕ) (rect_angle : ℚ) :
    TailResult :=
  let width_ratio : ℚ := (w : ℚ) / roi_w
  let height_ratio : ℚ := (h : ℚ) / roi_h
  let angle : ℚ := if rect_angle < -45 then rect_angle + 90 else rect_angle
  let position :=
    if height_ratio > width_ratio then
      if angle < 45 then "up" else "down"
    else
      if angle < 45 then "left" else "right"
  ⟨position, angle, width_ratio, height_ratio⟩

/-! ## Detection records and the box decoder
(`DetectionService`, detection_service.py) -/

/-- The detection dictionaries `{"class": ..., "confidence": ..., "bbox":
[x1, y1, x2, y2]}` produced by `postprocess_output`.  `cls` is the dict key
`"class"` (a Lean keyword). -/
structure Detection where
  cls : String
  confidence : ℚ
  x1 : ℤ
  y1 : ℤ
  x2 : ℤ
  y2 : ℤ
deriving DecidableEq, Repr

/-- The fixed class vocabulary `DetectionService.class_names`. -/
def class_names : List String := ["eye", "mouth", "tail"]

/-- Python `int(...)`, truncation toward zero. -/
def ratTrunc (q : ℚ) : ℤ := if 0 ≤ q then ⌊q⌋ else ⌈q⌉

/-- `np.argmax`: index of the first occurrence of the maximum. -/
def argmaxAux : List ℚ → ℕ → ℕ → ℚ → ℕ
  | [], _, best, _ => best
  | x :: xs, i, best, bestVal =>
    if bestVal < x then argmaxAux xs (i + 1) i x
    else argmaxAux xs (i + 1) best bestVal

/-- `np.argmax` over a candidate row's class probabilities.  (The rows that
reach the class branch have length > 5, so the list is nonempty there.) -/
def argmax : List ℚ → ℕ
  | [] => 0
  | x :: xs => argmaxAux xs 1 0 x

/-- The per-candidate body of the decoding loop of
`DetectionService.postprocess_output` (lines 120-170): extract the row's
fields, pick confidence and class, filter by the confidence threshold,
convert center form to corner form, scale back to original coordinates with
`int(...)` truncation, and drop degenerate boxes.  `none` models `continue`.
Row indexing uses `getD` defaults; rows of the rectangular model output all
have the features-axis length, so the per-row length test agrees with the
source's `output.shape[1] > 5`. -/
def decodeRow (conf_threshold x_scale y_scale : ℚ) (row : List ℚ) :
    Option Detection :=
  let x_center := row.getD 0 0
  let y_center := row.getD 1 0
  let width := row.getD 2 0
  let height := row.getD 3 0
  let objectness_or_conf := row.getD 4 0
  let conf_id : ℚ × ℕ :=
    if 5 < row.length then
      let class_probs := row.drop 5
      let class_id := argmax class_probs
      (class_probs.getD class_id 0, class_id)
    else
      (objectness_or_conf, 0)
  let conf := conf_id.1
  let class_id := conf_id.2
  if conf < conf_threshold then none
  else
    let x1 := ratTrunc ((x_center - width / 2) * x_scale)
    let y1 := ratTrunc ((y_center - height / 2) * y_scale)
    let x2 := ratTrunc ((x_center + width / 2) * x_scale)
    let y2 := ratTrunc ((y_center + height / 2) * y_scale)
    if x2 ≤ x1 ∨ y2 ≤ y1 then none
    else
      some ⟨if class_id < class_names.length then class_names.getD class_id ""
            else "class_" ++ toString class_id,
            conf, x1, y1, x2, y2⟩

/-! ## Non-Maximum Suppression -/

/-- Area of a corner-form box. -/
def boxArea (d : Detection) : ℤ := (d.x2 - d.x1) * (d.y2 - d.y1)

/-- Intersection area of two corner-form boxes. -/
def interArea (a b : Detection) : ℤ :=
  max 0 (min a.x2 b.x2 - max a.x1 b.x1) * max 0 (min a.y2 b.y2 - max a.y1 b.y1)

/-- Intersection-over-Union of two corner-form boxes (0 when the union is
empty). -/
def iou (a b : Detection) : ℚ :=
  let u : ℤ := boxArea a + boxArea b - interArea a b
  if u = 0 then 0 else (interArea a b : ℚ) / (u : ℚ)

/-- Greedy suppression pass over a confidence-sorted list: keep the head,
drop every remaining box whose IoU with it exceeds the threshold, recurse.
Structural recursion on a fuel that starts at the list length (the filtered
tail is never longer than the tail). -/
def nmsGreedyFuel (iou_threshold : ℚ) : ℕ → List Detection → List Detection
  | 0, _ => []
  | _ + 1, [] => []
  | fuel + 1, d :: rest =>
    d :: nmsGreedyFuel iou_threshold fuel
      (rest.filter fun b => decide (iou d b ≤ iou_threshold))

/-- Modelled from the spec: `DetectionService._apply_nms` delegates to
`cv2.dnn.NMSBoxes`, external OpenCV code that is not part of this
repository.  Following spec 4.3, it is modelled as standard greedy NMS over
the corner-form boxes: boxes scoring below the `conf_threshold` score floor
never reach the greedy pass; the rest are sorted by confidence descending and
greedily suppressed at `iou_threshold`. -/
def apply_nms (conf_threshold iou_threshold : ℚ) (dets : List Detection) :
    List Detection :=
  let scored := dets.filter fun d => decide (conf_threshold ≤ d.confidence)
  let sorted := scored.insertionSort fun a b => b.confidence ≤ a.confidence
  nmsGreedyFuel iou_threshold sorted.length sorted

/-- `DetectionService.postprocess_output` on the (batch-removed) model output
matrix: transpose to the canonical (candidates, features) layout when the
first axis is the smaller one, decode every row, then suppress. -/
def postprocess_output (conf_threshold iou_threshold : ℚ)
    (output : List (List ℚ)) (x_scale y_scale : ℚ) : List Detection :=
  let out := if output.length < (output.headD []).length then output.transpose
             else output
  let detections := out.filterMap (decodeRow conf_threshold x_scale y_scale)
  apply_nms conf_threshold iou_threshold detections

/-! ## Preprocessor (`DetectionService.preprocess_image`, lines 45-86) -/

/-- Faults the preprocessor can raise.  `zeroDivisionError` is Python's
`ZeroDivisionError`; `invalidImage` is the InvalidImage rejection the spec
prescribes for zero-area images (spec 4.1 and 7), which would surface as a
distinct client-input error. -/
inductive PreprocError
  | zeroDivisionError
  | invalidImage
deriving DecidableEq, Repr

/-- The resize geometry and scale factors `preprocess_image` computes. -/
structure PreprocResult where
  new_width : ℤ
  new_height : ℤ
  x_scale : ℚ
  y_scale : ℚ
deriving DecidableEq, Repr

/-- The geometry part of `DetectionService.preprocess_image`: `scale =
min(input_width/original_width, input_height/original_height)`; new
dimensions by `int(...)` truncation; scale factors `original/new`.  Python's
`/` raises `ZeroDivisionError` on a zero denominator, modelled by the error
branches: a zero-area input fails at the `scale` computation, and a resized
dimension that truncates to zero fails at the `x_scale`/`y_scale` division
(`cv2.resize` would equally reject the zero-sized target).  The padding,
BGR-to-RGB conversion, normalization and axis reordering do not affect the
returned geometry and are not modelled. -/
def preprocess_image (input_width input_height original_width original_height : ℕ) :
    Except PreprocError PreprocResult :=
  if original_width = 0 ∨ original_height = 0 then .error .zeroDivisionError
  else
    let scale : ℚ := min ((input_width : ℚ) / original_width)
                         ((input_height : ℚ) / original_height)
    let new_width : ℤ := ratTrunc (original_width * scale)
    let new_height : ℤ := ratTrunc (original_height * scale)
    if new_width = 0 ∨ new_height = 0 then .error .zeroDivisionError
    else .ok ⟨new_width, new_height,
              (original_width : ℚ) / (new_width : ℚ),
              (original_height : ℚ) / (new_height : ℚ)⟩

/-! ## ROI extraction and body-part analysis
(`image_service.extract_roi`, `AnalysisService.analyze_body_parts`) -/

/-- An input image; only its shape drives the control flow verified here
(the pixel payload is consumed by the external OpenCV analyzers, which are
abstracted as parameters below). -/
structure Image where
  height : ℕ
  width : ℕ
deriving DecidableEq, Repr

/-- The clamped sub-rectangle `image[y1:y2, x1:x2]` that `extract_roi`
returns. -/
structure Roi where
  x1 : ℤ
  y1 : ℤ
  x2 : ℤ
  y2 : ℤ
deriving DecidableEq, Repr

/-- `image_service.extract_roi`: clamp the bbox to the image bounds and
return `none` when the clamped box is degenerate (or the bbox is not a
4-list). -/
def extract_roi (image : Image) (bbox : List ℤ) : Option Roi :=
  if bbox.length ≠ 4 then none
  else
    let x1 := max 0 (bbox.getD 0 0)
    let y1 := max 0 (bbox.getD 1 0)
    let x2 := min (image.width : ℤ) (bbox.getD 2 0)
    let y2 := min (image.height : ℤ) (bbox.getD 3 0)
    if x2 ≤ x1 ∨ y2 ≤ y1 then none
    else some ⟨x1, y1, x2, y2⟩

/-- The mutable `AnalysisResult` pydantic model (schemas.py lines 14-19):
every field defaults to Python `None`. -/
structure AnalysisResult where
  eye_state : Option String := none
  mouth_state : Option String := none
  tail_position : Option String := none
  tail_angle : Option ℚ := none
deriving DecidableEq, Repr

/-- Python truthiness of an `Optional[str]`: `None` and `""` are falsy,
every other string is truthy — in particular `"unknown"` is truthy. -/
def truthy : Option String → Bool
  | none => false
  | some s => s ≠ ""

/-- Python `max(dets, key=lambda x: x["confidence"])`: the first detection of
maximal confidence (later elements replace only on strictly greater). -/
def maxByConf (d : Detection) (l : List Detection) : Detection :=
  l.foldl (fun acc x => if acc.confidence < x.confidence then x else acc) d

/-- `AnalysisService.analyze_body_parts`.  The three per-part analyzers
(`EyeAnalyzer.analyze_eye`, `MouthAnalyzer.analyze_mouth`,
`TailAnalyzer.detect_tail`) are OpenCV-based routines taken as parameters;
per their source, `analyzeEye` returns `"unknown"` when no contour is found,
`"wide_open"`, `"normal"` or `"closed"` otherwise, and similarly for the
others.  The fusion gate is the source's truthiness test
`if analysis_result.eye_state and analysis_result.mouth_state and
analysis_result.tail_position`. -/
def analyze_body_parts (analyzeEye analyzeMouth : Roi → String)
    (detectTail : Roi → TailResult) (image : Image)
    (detections : List Detection) : AnalysisResult × Option String :=
  let eyes := detections.filter fun d => d.cls == "eye"
  let mouths := detections.filter fun d => d.cls == "mouth"
  let tails := detections.filter fun d => d.cls == "tail"
  let r0 : AnalysisResult := {}
  let r1 :=
    match eyes with
    | [] => r0
    | e :: es =>
      let ed := maxByConf e es
      match extract_roi image [ed.x1, ed.y1, ed.x2, ed.y2] with
      | some roi => { r0 with eye_state := some (analyzeEye roi) }
      | none => r0
  let r2 :=
    match mouths with
    | [] => r1
    | m :: ms =>
      let md := maxByConf m ms
      match extract_roi image [md.x1, md.y1, md.x2, md.y2] with
      | some roi => { r1 with mouth_state := some (analyzeMouth roi) }
      | none => r1
  let r3 :=
    match tails with
    | [] => r2
    | t :: ts =>
      let td := maxByConf t ts
      match extract_roi image [td.x1, td.y1, td.x2, td.y2] with
      | some roi =>
        let ta := detectTail roi
        { r2 with tail_position := some ta.position, tail_angle := some ta.angle }
      | none => r2
  let emotion :=
    if truthy r3.eye_state && truthy r3.mouth_state && truthy r3.tail_position then
      some (determine_emotion (r3.eye_state.getD "") (r3.mouth_state.getD "")
              (r3.tail_position.getD ""))
    else none
  (r3, emotion)

/-! ## Concrete instances used by counterexamples and witnesses -/

/-- An eye analyzer outcome the source can produce: `EyeAnalyzer.analyze_eye`
returns `"unknown"` when `cv2.findContours` finds no contour (lines 44-45),
e.g. on an all-black crop. -/
def cEyeAnalysis : Roi → String := fun _ => "unknown"

/-- A mouth analyzer outcome (`"closed"` is the default result). -/
def cMouthAnalysis : Roi → String := fun _ => "closed"

/-- A tail analyzer outcome with position `"down"`. -/
def cTailAnalysis : Roi → TailResult := fun _ => ⟨"down", 0, mkRat 1 2, mkRat 3 4⟩

/-- A 100×100 test image. -/
def cImage : Image := ⟨100, 100⟩

/-- One detection of each class, with boxes inside `cImage`. -/
def cDetections : List Detection :=
  [⟨"eye", mkRat 9 10, 10, 10, 20, 20⟩,
   ⟨"mouth", mkRat 8 10, 30, 30, 40, 40⟩,
   ⟨"tail", mkRat 7 10, 50, 50, 60, 60⟩]

/-- A model output with 10 candidate rows of 8 features (so no transpose is
triggered): 8 zero-confidence rows and two confident, far-apart eye boxes. -/
def cOutputTwoEyes : List (List ℚ) :=
  List.replicate 8 [0, 0, 0, 0, 0, 0, 0, 0] ++
    [[10, 10, 4, 4, 0, 9/10, 0, 0], [100, 100, 4, 4, 0, 8/10, 0, 0]]

/-- A model output with 10 candidate rows of 9 features (4 class scores, so
one more than the 3 vocabulary classes): 9 zero-confidence rows and one
confident candidate whose argmax class index is 3, out of vocabulary range. -/
def cOutputExtraClass : List (List ℚ) :=
  List.replicate 9 [0, 0, 0, 0, 0, 0, 0, 0, 0] ++
    [[10, 10, 4, 4, 9/10, 0, 0, 0, 9/10]]

/-- The two detections `cOutputTwoEyes` decodes to at unit scales. -/
def cEyeDet1 : Detection := ⟨"eye", 9/10, 8, 8, 12, 12⟩

/-- Second retained detection of `cOutputTwoEyes`. -/
def cEyeDet2 : Detection := ⟨"eye", 8/10, 98, 98, 102, 102⟩

/-- The detection `cOutputExtraClass` decodes to at unit scales: its class is
the synthetic name for the out-of-range class index 3. -/
def cExtraDet : Detection := ⟨"class_3", 9/10, 8, 8, 12, 12⟩

/-! ## Theorems -/

theorem beq_eq_decideEq (a b : String) : (a == b) = decide (a = b) := by
  by_cases h : a = b <;> simp [h]

theorem exact_find_congr (e m t : String) :
    (EMOTION_MAPPING.find? fun p =>
        p.1.1 == e && p.1.2.1 == m && p.1.2.2 == t)
      = EMOTION_MAPPING.find? fun p => decide (p.1 = (e, m, t)) := by
  have h : (fun p : (String × String × String) × String =>
      p.1.1 == e && p.1.2.1 == m && p.1.2.2 == t)
      = fun p => decide (p.1 = (e, m, t)) := by
    funext p
    rcases p with ⟨⟨pe, pm, pt⟩, pv⟩
    by_cases h1 : pe = e <;> by_cases h2 : pm = m <;> by_cases h3 : pt = t <;>
      simp [h1, h2, h3]
  rw [h]

theorem pair_find_congr (e m : String) :
    (EMOTION_MAPPING.find? fun p => p.1.1 == e && p.1.2.1 == m)
      = EMOTION_MAPPING.find? fun p => decide (p.1.1 = e ∧ p.1.2.1 = m) := by
  have h : (fun p : (String × String × String) × String =>
      p.1.1 == e && p.1.2.1 == m)
      = fun p => decide (p.1.1 = e ∧ p.1.2.1 = m) := by
    funext p
    rcases p with ⟨⟨pe, pm, pt⟩, pv⟩
    by_cases h1 : pe = e <;> by_cases h2 : pm = m <;> simp [h1, h2]
  rw [h]

theorem determine_emotion_eq_spec (e m t : String) :
    determine_emotion e m t = emotionSpec e m t := by
  unfold determine_emotion emotionSpec exactEntry pairEntry defaultHeuristic
  rw [exact_find_congr, pair_find_congr]
  cases EMOTION_MAPPING.find? fun p => decide (p.1 = (e, m, t)) with
  | some p => rfl
  | none =>
    cases EMOTION_MAPPING.find? fun p => decide (p.1.1 = e ∧ p.1.2.1 = m) with
    | some p => rfl
    | none =>
      simp only [beq_eq_decideEq, Bool.and_eq_true, decide_eq_true_eq,
        Option.map_none', Option.getD_none]

/-- C1: `determine_emotion` resolves its input triple in exactly the spec's
three tiers — exact match in the fixed 7-entry table, else the first table
entry in definition order whose (eye, mouth) pair matches ignoring tail,
else the default heuristics in priority order — and in particular
`determine_emotion "wide_open" "closed" "up" = "alert"`. -/
theorem determine_emotion_three_tier_policy :
    (∀ e m t, determine_emotion e m t = emotionSpec e m t) ∧
    determine_emotion "wide_open" "closed" "up" = "alert" :=
  ⟨determine_emotion_eq_spec, by decide⟩

/-- C10: `determine_emotion` is total over arbitrary string triples: it
always returns one of the nine labels and never returns `"unknown"`. -/
theorem determine_emotion_total (e m t : String) :
    determine_emotion e m t ∈ emotionVocabulary ∧
    determine_emotion e m t ≠ "unknown" := by
  have h : determine_emotion e m t ∈ emotionVocabulary := by
    unfold determine_emotion
    split
    · next p hp =>
        have hmem := List.mem_of_find?_eq_some hp
        fin_cases hmem <;> decide
    · split
      · next p hp =>
          have hmem := List.mem_of_find?_eq_some hp
          fin_cases hmem <;> decide
      · split_ifs <;> decide
  refine ⟨h, fun hc => ?_⟩
  rw [hc] at h
  revert h
  decide

/-- C7: the eye classification is determined by the white/dark pixel ratio,
with ratio 0 when there are no dark pixels (no division fault): wide_open
iff ratio > 3/2, normal iff 1/2 < ratio ≤ 3/2, closed otherwise — and a
zero dark count always classifies as closed. -/
theorem eye_ratio_classification (w d : ℕ) :
    (eyeStateOfCounts w d = "wide_open" ↔ 3/2 < eyeRatio w d) ∧
    (eyeStateOfCounts w d = "normal" ↔
      1/2 < eyeRatio w d ∧ eyeRatio w d ≤ 3/2) ∧
    (eyeStateOfCounts w d = "closed" ↔ eyeRatio w d ≤ 1/2) ∧
    eyeRatio w 0 = 0 ∧ eyeStateOfCounts w 0 = "closed" := by
  have he : eyeStateOfCounts w d =
      if 3/2 < eyeRatio w d then "wide_open"
      else if 1/2 < eyeRatio w d then "normal" else "closed" := rfl
  have h0 : eyeRatio w 0 = 0 := by simp [eyeRatio]
  have hc : eyeStateOfCounts w 0 = "closed" := by
    have : eyeStateOfCounts w 0 =
        if 3/2 < eyeRatio w 0 then "wide_open"
        else if 1/2 < eyeRatio w 0 then "normal" else "closed" := rfl
    rw [this, h0]
    norm_num
  refine ⟨?_, ?_, ?_, h0, hc⟩ <;> rw [he] <;> split_ifs with hA hB <;>
    simp_all <;> linarith

/-- C9: under the OpenCV (≥ 4.5) convention that `cv2.minAreaRect` returns
an angle in [0, 90), the angle `detect_tail` reports — the rect angle with
90 added when below -45 — lies in [0, 180). -/
theorem detect_tail_angle_range (roiW roiH bw bh : ℕ) (a : ℚ)
    (h0 : 0 ≤ a) (h1 : a < 90) :
    0 ≤ (detect_tail_from_rect roiW roiH bw bh a).angle ∧
    (detect_tail_from_rect roiW roiH bw bh a).angle < 180 := by
  have he : (detect_tail_from_rect roiW roiH bw bh a).angle
      = if a < -45 then a + 90 else a := rfl
  rw [he, if_neg (by linarith)]
  exact ⟨h0, by linarith⟩

theorem detect_tail_angle_range_witness :
    0 ≤ (detect_tail_from_rect 10 20 5 15 30).angle ∧
    (detect_tail_from_rect 10 20 5 15 30).angle < 180 :=
  detect_tail_angle_range 10 20 5 15 30 (by norm_num) (by norm_num)

/-- C5 counterexample: for a 1000×3 image and a 640 target, the code resizes
the height to `int(3 * 0.64) = 1`, while the claim's `round(3 * 0.64) = 2`;
so `preprocess_image` truncates rather than rounds. -/
theorem preprocess_rounding_counterexample :
    preprocess_image 640 640 1000 3 = .ok ⟨640, 1, 1000/640, 3⟩ ∧
    round ((3 : ℚ) * min ((640 : ℚ) / 1000) ((640 : ℚ) / 3)) = 2 ∧
    (1 : ℤ) ≠ 2 := by
  refine ⟨?_, ?_, by decide⟩
  · norm_num [preprocess_image, ratTrunc, min_def]
  · rw [min_def]
    norm_num [round_eq]

/-- C5 amended: for every positive-area image, `preprocess_image` computes
`scale = min(S_w/width, S_h/height)`, resizes to the TRUNCATED
`(int(width*scale), int(height*scale))` (floor, as the values are
nonnegative) — not the rounded values — and returns scale factors
`(original_width/resized_width, original_height/resized_height)`, provided
neither resized dimension truncates to zero. -/
theorem preprocess_geometry (iw ih ow oh : ℕ) (hw : 0 < ow) (hh : 0 < oh)
    (hnw : ⌊(ow : ℚ) * min ((iw : ℚ) / ow) ((ih : ℚ) / oh)⌋ ≠ 0)
    (hnh : ⌊(oh : ℚ) * min ((iw : ℚ) / ow) ((ih : ℚ) / oh)⌋ ≠ 0) :
    preprocess_image iw ih ow oh = .ok
      ⟨⌊(ow : ℚ) * min ((iw : ℚ) / ow) ((ih : ℚ) / oh)⌋,
       ⌊(oh : ℚ) * min ((iw : ℚ) / ow) ((ih : ℚ) / oh)⌋,
       (ow : ℚ) / (⌊(ow : ℚ) * min ((iw : ℚ) / ow) ((ih : ℚ) / oh)⌋ : ℚ),
       (oh : ℚ) / (⌊(oh : ℚ) * min ((iw : ℚ) / ow) ((ih : ℚ) / oh)⌋ : ℚ)⟩ := by
  have hsc : (0 : ℚ) ≤ min ((iw : ℚ) / ow) ((ih : ℚ) / oh) := by positivity
  simp only [preprocess_image, ratTrunc]
  rw [if_neg (by omega)]
  rw [if_pos (mul_nonneg (Nat.cast_nonneg ow) hsc),
      if_pos (mul_nonneg (Nat.cast_nonneg oh) hsc)]
  rw [if_neg (by push_neg; exact ⟨hnw, hnh⟩)]

theorem preprocess_geometry_witness :
    preprocess_image 640 640 1000 3 = .ok ⟨640, 1, 25/16, 3⟩ := by
  have h := preprocess_geometry 640 640 1000 3 (by norm_num) (by norm_num)
    (by rw [min_def]; norm_num) (by rw [min_def]; norm_num)
  rw [h]
  rw [min_def]
  norm_num

/-- C6 (code bug): `preprocess_image` on a zero-area image fails with
Python's ZeroDivisionError at the `scale = min(640/width, 640/height)`
computation; the spec prescribes rejection with InvalidImage, a distinct
fault. -/
theorem preprocess_zero_area_fault :
    preprocess_image 640 640 0 5 = .error .zeroDivisionError ∧
    preprocess_image 640 640 5 0 = .error .zeroDivisionError ∧
    PreprocError.zeroDivisionError ≠ PreprocError.invalidImage := by
  refine ⟨?_, ?_, by decide⟩ <;> simp [preprocess_image]

theorem analyze_body_parts_emotion (aE aM : Roi → String) (aT : Roi → TailResult)
    (img : Image) (dets : List Detection) :
    (analyze_body_parts aE aM aT img dets).2 =
      if truthy (analyze_body_parts aE aM aT img dets).1.eye_state &&
         truthy (analyze_body_parts aE aM aT img dets).1.mouth_state &&
         truthy (analyze_body_parts aE aM aT img dets).1.tail_position then
        some (determine_emotion
          ((analyze_body_parts aE aM aT img dets).1.eye_state.getD "")
          ((analyze_body_parts aE aM aT img dets).1.mouth_state.getD "")
          ((analyze_body_parts aE aM aT img dets).1.tail_position.getD ""))
      else none := rfl

/-- C3 counterexample: with the eye analyzer returning `"unknown"` (its
documented no-contour result), the mouth `"closed"` and the tail `"down"`,
`analyze_body_parts` records `eye_state = "unknown"` and the fuser STILL
runs — the returned emotion is `"submissive"`, not absent. -/
theorem fusion_unknown_counterexample :
    (analyze_body_parts cEyeAnalysis cMouthAnalysis cTailAnalysis cImage
        cDetections).1.eye_state = some "unknown" ∧
    (analyze_body_parts cEyeAnalysis cMouthAnalysis cTailAnalysis cImage
        cDetections).2 = some "submissive" ∧
    (some "submissive" : Option String) ≠ none := by
  decide

/-- C3 amended: emotion fusion is gated on Python truthiness of the three
part states, not on them being non-"unknown": the returned emotion is absent
exactly when some state is `None` (or the empty string); a state of
`"unknown"` is truthy, so the fuser still runs on it. -/
theorem fusion_gate_truthiness (aE aM : Roi → String) (aT : Roi → TailResult)
    (img : Image) (dets : List Detection) :
    ((analyze_body_parts aE aM aT img dets).2 = none ↔
      (truthy (analyze_body_parts aE aM aT img dets).1.eye_state &&
       truthy (analyze_body_parts aE aM aT img dets).1.mouth_state &&
       truthy (analyze_body_parts aE aM aT img dets).1.tail_position) = false) ∧
    truthy none = false ∧ truthy (some "unknown") = true := by
  refine ⟨?_, rfl, rfl⟩
  rw [analyze_body_parts_emotion]
  set b := truthy (analyze_body_parts aE aM aT img dets).1.eye_state &&
    truthy (analyze_body_parts aE aM aT img dets).1.mouth_state &&
    truthy (analyze_body_parts aE aM aT img dets).1.tail_position with hb
  cases b <;> simp

theorem mem_of_mem_nmsGreedyFuel (thr : ℚ) :
    ∀ (fuel : ℕ) (l : List Detection) (d : Detection),
      d ∈ nmsGreedyFuel thr fuel l → d ∈ l := by
  intro fuel
  induction fuel with
  | zero => intro l d h; simp [nmsGreedyFuel] at h
  | succ n ih =>
    intro l d h
    cases l with
    | nil => simp [nmsGreedyFuel] at h
    | cons a rest =>
      simp only [nmsGreedyFuel] at h
      rcases List.mem_cons.mp h with rfl | h2
      · exact List.mem_cons_self _ _
      · exact List.mem_cons_of_mem _ (List.mem_of_mem_filter (ih _ _ h2))

theorem mem_of_mem_apply_nms (ct it : ℚ) (dets : List Detection)
    (d : Detection) (h : d ∈ apply_nms ct it dets) : d ∈ dets := by
  unfold apply_nms at h
  have h1 := mem_of_mem_nmsGreedyFuel it _ _ d h
  rw [List.mem_insertionSort] at h1
  exact List.mem_of_mem_filter h1

theorem getD_mem_of_lt (l : List String) (i : ℕ) (s : String)
    (h : i < l.length) : l.getD i s ∈ l := by
  rw [List.getD_eq_getElem?_getD, List.getElem?_eq_getElem h, Option.getD_some]
  exact List.getElem_mem h

theorem decodeRow_some (ct xs ys : ℚ) (row : List ℚ) (d : Detection)
    (h : decodeRow ct xs ys row = some d) :
    ct ≤ d.confidence ∧ d.x1 < d.x2 ∧ d.y1 < d.y2 ∧
    (d.cls ∈ class_names ∨
     ∃ n : ℕ, class_names.length ≤ n ∧ d.cls = "class_" ++ toString n) := by
  by_cases hlen : 5 < row.length
  · simp only [decodeRow, if_pos hlen] at h
    split_ifs at h with hconf hdeg hcid
    · obtain rfl := (Option.some_inj.mp h).symm
      push_neg at hdeg
      exact ⟨le_of_not_lt hconf, hdeg.1, hdeg.2,
        Or.inl (getD_mem_of_lt _ _ _ hcid)⟩
    · obtain rfl := (Option.some_inj.mp h).symm
      push_neg at hdeg
      exact ⟨le_of_not_lt hconf, hdeg.1, hdeg.2,
        Or.inr ⟨_, le_of_not_lt hcid, rfl⟩⟩
  · simp only [decodeRow, if_neg hlen] at h
    split_ifs at h with hconf hdeg hcid
    · obtain rfl := (Option.some_inj.mp h).symm
      push_neg at hdeg
      exact ⟨le_of_not_lt hconf, hdeg.1, hdeg.2,
        Or.inl (getD_mem_of_lt class_names 0 "" hcid)⟩
    · obtain rfl := (Option.some_inj.mp h).symm
      push_neg at hdeg
      exact ⟨le_of_not_lt hconf, hdeg.1, hdeg.2,
        Or.inr ⟨_, le_of_not_lt hcid, rfl⟩⟩

theorem pairwise_nmsGreedyFuel (thr : ℚ) :
    ∀ (fuel : ℕ) (l : List Detection),
      (nmsGreedyFuel thr fuel l).Pairwise fun a b => iou a b ≤ thr := by
  intro fuel
  induction fuel with
  | zero => intro l; simp [nmsGreedyFuel]
  | succ n ih =>
    intro l
    cases l with
    | nil => simp [nmsGreedyFuel]
    | cons a rest =>
      simp only [nmsGreedyFuel]
      refine List.pairwise_cons.mpr ⟨?_, ih _⟩
      intro b hb
      have hbf := mem_of_mem_nmsGreedyFuel thr _ _ b hb
      have hpb := (List.mem_filter.mp hbf).2
      simpa using hpb

theorem interArea_comm (a b : Detection) : interArea a b = interArea b a := by
  unfold interArea
  rw [min_comm a.x2 b.x2, max_comm a.x1 b.x1, min_comm a.y2 b.y2,
    max_comm a.y1 b.y1]

theorem iou_comm (a b : Detection) : iou a b = iou b a := by
  simp only [iou]
  rw [interArea_comm a b, add_comm (boxArea a) (boxArea b)]

theorem pairwise_postprocess (ct it : ℚ) (output : List (List ℚ))
    (xs ys : ℚ) :
    (postprocess_output ct it output xs ys).Pairwise
      fun a b => iou a b ≤ it := by
  unfold postprocess_output apply_nms
  exact pairwise_nmsGreedyFuel it _ _

/-- C2: every detection emitted by `postprocess_output` has confidence at
least `conf_threshold` and an integer bounding box with `x2 > x1` and
`y2 > y1`. -/
theorem postprocess_detections_valid (ct it : ℚ) (output : List (List ℚ))
    (xs ys : ℚ) (d : Detection)
    (hd : d ∈ postprocess_output ct it output xs ys) :
    ct ≤ d.confidence ∧ d.x1 < d.x2 ∧ d.y1 < d.y2 := by
  unfold postprocess_output at hd
  have h1 := mem_of_mem_apply_nms ct it _ d hd
  obtain ⟨row, hrow, hdec⟩ := List.mem_filterMap.mp h1
  have h2 := decodeRow_some ct xs ys row d hdec
  exact ⟨h2.1, h2.2.1, h2.2.2.1⟩

/-- C4: any two distinct detections retained after NMS that have the same
class have IoU at most `iou_threshold` (the property in fact holds for all
retained pairs, of any classes, since the source suppresses globally). -/
theorem nms_retained_iou_bounded (ct it : ℚ) (output : List (List ℚ))
    (xs ys : ℚ) (a b : Detection)
    (ha : a ∈ postprocess_output ct it output xs ys)
    (hb : b ∈ postprocess_output ct it output xs ys)
    (hab : a ≠ b) (hcls : a.cls = b.cls) :
    iou a b ≤ it := by
  have hp := pairwise_postprocess ct it output xs ys
  have hsym : Symmetric fun x y : Detection => iou x y ≤ it := by
    intro x y hxy
    rw [iou_comm]
    exact hxy
  exact hp.forall hsym ha hb hab

theorem postprocess_two_eyes_eval :
    postprocess_output (1/4) (9/20) cOutputTwoEyes 1 1 = [cEyeDet1, cEyeDet2] := by
  have hr0 : decodeRow (1/4) 1 1 [0, 0, 0, 0, 0, 0, 0, 0] = none := by
    norm_num [decodeRow, argmax, argmaxAux]
  have hr1 : decodeRow (1/4) 1 1 [10, 10, 4, 4, 0, 9/10, 0, 0]
      = some cEyeDet1 := by
    norm_num [decodeRow, argmax, argmaxAux, ratTrunc, class_names, cEyeDet1]
  have hr2 : decodeRow (1/4) 1 1 [100, 100, 4, 4, 0, 8/10, 0, 0]
      = some cEyeDet2 := by
    norm_num [decodeRow, argmax, argmaxAux, ratTrunc, class_names, cEyeDet2]
  have hfm : List.filterMap (decodeRow (1/4) 1 1) cOutputTwoEyes
      = [cEyeDet1, cEyeDet2] := by
    simp only [cOutputTwoEyes, List.replicate, List.cons_append,
      List.nil_append, List.filterMap_cons, List.filterMap_nil, hr0, hr1, hr2]
  simp only [postprocess_output]
  rw [if_neg (by decide), hfm]
  norm_num [apply_nms, nmsGreedyFuel, iou, boxArea, interArea, cEyeDet1,
    cEyeDet2, List.insertionSort, List.orderedInsert]

theorem postprocess_extra_eval :
    postprocess_output (1/4) (9/20) cOutputExtraClass 1 1 = [cExtraDet] := by
  have hr0 : decodeRow (1/4) 1 1 [0, 0, 0, 0, 0, 0, 0, 0, 0] = none := by
    norm_num [decodeRow, argmax, argmaxAux]
  have hr1 : decodeRow (1/4) 1 1 [10, 10, 4, 4, 9/10, 0, 0, 0, 9/10]
      = some cExtraDet := by
    norm_num [decodeRow, argmax, argmaxAux, ratTrunc, class_names, cExtraDet]
    decide
  have hfm : List.filterMap (decodeRow (1/4) 1 1) cOutputExtraClass
      = [cExtraDet] := by
    simp only [cOutputExtraClass, List.replicate, List.cons_append,
      List.nil_append, List.filterMap_cons, List.filterMap_nil, hr0, hr1]
  simp only [postprocess_output]
  rw [if_neg (by decide), hfm]
  norm_num [apply_nms, nmsGreedyFuel, cExtraDet, List.insertionSort,
    List.orderedInsert]

theorem postprocess_detections_valid_witness :
    (1/4 : ℚ) ≤ cEyeDet1.confidence ∧
    cEyeDet1.x1 < cEyeDet1.x2 ∧ cEyeDet1.y1 < cEyeDet1.y2 :=
  postprocess_detections_valid (1/4) (9/20) cOutputTwoEyes 1 1 cEyeDet1
    (by rw [postprocess_two_eyes_eval]; exact List.mem_cons_self _ _)

theorem nms_retained_iou_bounded_witness : iou cEyeDet1 cEyeDet2 ≤ 9/20 :=
  nms_retained_iou_bounded (1/4) (9/20) cOutputTwoEyes 1 1 cEyeDet1 cEyeDet2
    (by rw [postprocess_two_eyes_eval]; exact List.mem_cons_self _ _)
    (by rw [postprocess_two_eyes_eval]
        exact List.mem_cons_of_mem _ (List.mem_cons_self _ _))
    (fun hc => absurd (congrArg Detection.x1 hc) (by decide))
    rfl

/-- C8 counterexample: a candidate row whose argmax class index is 3 — out
of range for the 3-name vocabulary — is NOT discarded by the decoder: it is
emitted as a detection with the synthetic class name `"class_3"`, which is
no vocabulary name. -/
theorem out_of_range_class_counterexample :
    postprocess_output (1/4) (9/20) cOutputExtraClass 1 1 = [cExtraDet] ∧
    cExtraDet.cls ∉ class_names := by
  refine ⟨postprocess_extra_eval, ?_⟩
  decide

/-- C8 amended: the decoder never discards a candidate for an out-of-range
class id; every emitted detection's class is either a vocabulary name or the
synthetic `"class_" ++ toString class_id` for some out-of-range id. -/
theorem postprocess_class_names (ct it : ℚ) (output : List (List ℚ))
    (xs ys : ℚ) (d : Detection)
    (hd : d ∈ postprocess_output ct it output xs ys) :
    d.cls ∈ class_names ∨
    ∃ n : ℕ, class_names.length ≤ n ∧ d.cls = "class_" ++ toString n := by
  unfold postprocess_output at hd
  have h1 := mem_of_mem_apply_nms ct it _ d hd
  obtain ⟨row, hrow, hdec⟩ := List.mem_filterMap.mp h1
  exact (decodeRow_some ct xs ys row d hdec).2.2.2

theorem postprocess_class_names_witness :
    cExtraDet.cls ∈ class_names ∨
    ∃ n : ℕ, class_names.length ≤ n ∧ cExtraDet.cls = "class_" ++ toString n :=
  postprocess_class_names (1/4) (9/20) cOutputExtraClass 1 1 cExtraDet
    (by rw [postprocess_extra_eval]; exact List.mem_cons_self _ _)

end DeepFrank
